import Mathlib

/-!
Verification of the against-wind repository UI layer and persistence schema.

The definitions below are shallow embeddings of:
  * `src/ui/lib/hooks/useAnalysis.ts` (query building and SSE event handling),
  * `src/ui/lib/hooks/useRouteMetadata.ts` (metadata-driven defaults),
  * `src/ui/components/analysis/TimingModeSelector.tsx` (historical-mode notes),
  * `src/ui/components/analysis/AnalysisProgressDisplay.tsx` (progress clamping),
  * `src/ui/components/RouteMap.tsx` (wind-segment feature construction),
  * the SQL schema for `forecast_results`, `segment_wind` and `summaries`.

Times are modelled as integers (epoch offsets), JavaScript numbers as
rationals, and parsed JSON payloads as opaque strings.
-/

namespace AgainstWind

/-- The `TimingMode` union type from the UI type declarations:
`'manual' | 'gpx_timestamps' | 'estimated'`. -/
inductive TimingMode
| manual
| gpx_timestamps
| estimated
deriving DecidableEq

/-- The `RouteMetadata` interface from the UI type declarations.
`start_time` is an epoch instant when present; `timestamp_coverage` is a
JavaScript number modelled as a rational. -/
structure RouteMetadata where
  has_timestamps : Bool
  timestamp_coverage : ℚ
  start_time : Option Int
  estimated_duration_hours : Option ℚ
  total_distance_km : Option ℚ
deriving DecidableEq

/-- JavaScript `Boolean.prototype.toString`. -/
def boolQueryString (b : Bool) : String :=
  if b then "true" else "false"

/-- The query parameters assembled by `handleAnalyze` in `useAnalysis.ts`.
`estimated_duration_hours` is `none` when the parameter is not appended. -/
structure AnalyzeParams where
  route_id : String
  depart : String
  provider : String
  use_gpx_timestamps : String
  use_historical_mode : String
  estimated_duration_hours : Option String
deriving DecidableEq

/-- `handleAnalyze` builds the request query string:
`use_gpx_timestamps` is `(timingMode === 'gpx_timestamps').toString()`,
`use_historical_mode` is
`(useHistoricalMode && timingMode === 'gpx_timestamps').toString()`, and
`estimated_duration_hours` is appended only when `timingMode === 'estimated'`. -/
def buildAnalyzeParams (routeId departISO provider : String) (timingMode : TimingMode)
    (useHistoricalMode : Bool) (estimatedDuration : ℚ) : AnalyzeParams :=
  { route_id := routeId
    depart := departISO
    provider := provider
    use_gpx_timestamps := boolQueryString (timingMode = TimingMode.gpx_timestamps)
    use_historical_mode :=
      boolQueryString (useHistoricalMode ∧ timingMode = TimingMode.gpx_timestamps)
    estimated_duration_hours :=
      if timingMode = TimingMode.estimated then some (toString estimatedDuration) else none }

/-- C3: the three timing modes are mutually exclusive in every request built by
`handleAnalyze`: `use_gpx_timestamps = "true"` iff the mode is
`gpx_timestamps`; `use_historical_mode = "true"` iff historical mode is on and
the mode is `gpx_timestamps`; `estimated_duration_hours` is present iff the
mode is `estimated`. -/
theorem analyze_params_timing_modes (routeId departISO provider : String)
    (mode : TimingMode) (hist : Bool) (dur : ℚ) :
    ((buildAnalyzeParams routeId departISO provider mode hist dur).use_gpx_timestamps = "true"
        ↔ mode = TimingMode.gpx_timestamps)
    ∧ ((buildAnalyzeParams routeId departISO provider mode hist dur).use_historical_mode = "true"
        ↔ (hist = true ∧ mode = TimingMode.gpx_timestamps))
    ∧ ((buildAnalyzeParams routeId departISO provider mode hist dur).estimated_duration_hours.isSome
        ↔ mode = TimingMode.estimated) := by
  cases mode <;> cases hist <;>
    simp [buildAnalyzeParams, boolQueryString]

/-- Witness for C3 at estimated mode with historical mode requested. -/
theorem analyze_params_timing_modes_witness :
    ((buildAnalyzeParams "r1" "2024-12-15T10:00:00.000Z" "open-meteo"
          TimingMode.estimated true 3).use_gpx_timestamps = "true"
        ↔ TimingMode.estimated = TimingMode.gpx_timestamps)
    ∧ ((buildAnalyzeParams "r1" "2024-12-15T10:00:00.000Z" "open-meteo"
          TimingMode.estimated true 3).use_historical_mode = "true"
        ↔ ((true : Bool) = true ∧ TimingMode.estimated = TimingMode.gpx_timestamps))
    ∧ ((buildAnalyzeParams "r1" "2024-12-15T10:00:00.000Z" "open-meteo"
          TimingMode.estimated true 3).estimated_duration_hours.isSome
        ↔ TimingMode.estimated = TimingMode.estimated) :=
  analyze_params_timing_modes "r1" "2024-12-15T10:00:00.000Z" "open-meteo"
    TimingMode.estimated true 3

/-- The parsed payload of a `progress` SSE event (`AnalysisProgress`). -/
structure ProgressData where
  stage : String
  progress : ℚ
  message : Option String
deriving DecidableEq

/-- The data carried by an SSE event of type `error`, as seen by the listener
in `handleAnalyze`: either `event.data` is not a string (connection errors),
or it is a string that fails `JSON.parse`, or it parses to an object whose
`message` field is the given optional string. -/
inductive ErrorData
| noString
| unparsable
| parsed (message : Option String)
deriving DecidableEq

/-- One event delivered on the analysis `EventSource`. `complete` carries the
parsed payload, modelled opaquely as a string. -/
inductive StreamEvent
| progress (data : ProgressData)
| complete (payload : String)
| error (data : ErrorData)
deriving DecidableEq

/-- The client-observable state maintained by the `useAnalysis` hook:
the two React state cells, whether `eventSource.close()` has been called,
and the accumulated calls to the `onAnalysisComplete` / `onAnalysisError`
callbacks (in call order). -/
structure HookState where
  isAnalyzing : Bool
  progress : Option ProgressData
  closed : Bool
  completedCalls : List String
  errorCalls : List String
deriving DecidableEq

/-- State right after `handleAnalyze` opens the `EventSource`:
`setIsAnalyzing(true)` and `setProgress(null)` have run, no callback has
fired, the source is open. -/
def initState : HookState :=
  { isAnalyzing := true, progress := none, closed := false
    completedCalls := [], errorCalls := [] }

/-- JavaScript `data.message || fallback`: the `message` field when it is a
truthy string, the fallback otherwise (absent or empty message). -/
def jsMessageOr (message : Option String) (fallback : String) : String :=
  match message with
  | some m => if m = "" then fallback else m
  | none => fallback

/-- The `addEventListener('error', ...)` callback of `handleAnalyze`.
When `event.data` is not a string the callback returns early, but its
`finally` block still clears progress, stops analyzing and closes the
source; a parse failure reports the unknown-error fallback; a parsed
payload reports `data.message || 'Analysis failed'`. -/
def errorListenerStep (s : HookState) (d : ErrorData) : HookState :=
  match d with
  | ErrorData.noString =>
      { s with progress := none, isAnalyzing := false, closed := true }
  | ErrorData.unparsable =>
      { s with errorCalls := s.errorCalls ++ ["Analysis failed with an unknown error."]
               progress := none, isAnalyzing := false, closed := true }
  | ErrorData.parsed msg =>
      { s with errorCalls := s.errorCalls ++ [jsMessageOr msg "Analysis failed"]
               progress := none, isAnalyzing := false, closed := true }

/-- The `eventSource.onerror` handler of `handleAnalyze`. In the DOM event
model `onerror` is a listener for events of type `error`, so it also runs
for server-sent `error` events, after the `addEventListener` callback. -/
def onerrorStep (s : HookState) : HookState :=
  { s with errorCalls := s.errorCalls ++ ["Connection error to analysis service."]
           progress := none, isAnalyzing := false, closed := true }

/-- Dispatch of one `EventSource` event to the handlers registered by
`handleAnalyze`. A closed source delivers no events. An `error`-typed event
runs both registered `error` listeners in registration order (closing the
source mid-dispatch does not stop the remaining listener for the same
event). -/
def step (s : HookState) (e : StreamEvent) : HookState :=
  if s.closed then s
  else
    match e with
    | StreamEvent.progress d => { s with progress := some d }
    | StreamEvent.complete p =>
        { s with completedCalls := s.completedCalls ++ [p]
                 progress := none, isAnalyzing := false, closed := true }
    | StreamEvent.error d => onerrorStep (errorListenerStep s d)

/-- The state after `handleAnalyze` has processed a whole event trace. -/
def runStream (events : List StreamEvent) : HookState :=
  events.foldl step initState

/-- Processing any sequence of `progress` events from an open state only
updates the `progress` cell. -/
lemma foldl_progress_only (ps : List ProgressData) (s : HookState)
    (h : s.closed = false) :
    ∃ pr, (ps.map StreamEvent.progress).foldl step s = { s with progress := pr } := by
  induction ps generalizing s with
  | nil => exact ⟨s.progress, rfl⟩
  | cons d ps ih =>
      have hstep : step s (StreamEvent.progress d) = { s with progress := some d } := by
        simp [step, h]
      obtain ⟨pr, hpr⟩ := ih { s with progress := some d } (by simp [h])
      exact ⟨pr, by simp [List.map_cons, List.foldl_cons, hstep, hpr]⟩

/-- A closed `EventSource` delivers no further events. -/
lemma step_closed (s : HookState) (e : StreamEvent) (h : s.closed = true) :
    step s e = s := by
  simp [step, h]

/-- C1: each analysis stream is terminated by exactly one terminal event.
After any number of `progress` events — which only update the progress
state — a `complete` event delivers the parsed payload to
`onAnalysisComplete`, clears progress, sets `isAnalyzing` to false and
closes the `EventSource`; a terminal `error` event likewise closes the
source; a closed source absorbs every further event; and before the
terminal event the stream is still open with no callback fired. -/
theorem analysis_stream_terminates_once (ps : List ProgressData) (p : String)
    (d : ErrorData) :
    ((runStream (ps.map StreamEvent.progress ++ [StreamEvent.complete p])).completedCalls = [p]
      ∧ (runStream (ps.map StreamEvent.progress ++ [StreamEvent.complete p])).progress = none
      ∧ (runStream (ps.map StreamEvent.progress ++ [StreamEvent.complete p])).isAnalyzing = false
      ∧ (runStream (ps.map StreamEvent.progress ++ [StreamEvent.complete p])).closed = true)
    ∧ (runStream (ps.map StreamEvent.progress ++ [StreamEvent.error d])).closed = true
    ∧ (∀ s : HookState, s.closed = true → ∀ e, step s e = s)
    ∧ ((runStream (ps.map StreamEvent.progress)).closed = false
      ∧ (runStream (ps.map StreamEvent.progress)).completedCalls = []
      ∧ (runStream (ps.map StreamEvent.progress)).errorCalls = []
      ∧ (runStream (ps.map StreamEvent.progress)).isAnalyzing = true
      ∧ ∃ pr, runStream (ps.map StreamEvent.progress) = { initState with progress := pr }) := by
  obtain ⟨pr, hpr⟩ := foldl_progress_only ps initState rfl
  have hrun : runStream (ps.map StreamEvent.progress) = { initState with progress := pr } := hpr
  have hc : runStream (ps.map StreamEvent.progress ++ [StreamEvent.complete p])
      = step { initState with progress := pr } (StreamEvent.complete p) := by
    simp only [runStream, List.foldl_append, List.foldl_cons, List.foldl_nil]
    rw [hpr]
  have he : runStream (ps.map StreamEvent.progress ++ [StreamEvent.error d])
      = step { initState with progress := pr } (StreamEvent.error d) := by
    simp only [runStream, List.foldl_append, List.foldl_cons, List.foldl_nil]
    rw [hpr]
  refine ⟨?_, ?_, ?_, ?_⟩
  · rw [hc]
    simp [step, initState]
  · rw [he]
    cases d <;> simp [step, initState, errorListenerStep, onerrorStep]
  · exact fun s hs e => step_closed s e hs
  · exact ⟨by rw [hrun]; rfl, by rw [hrun]; rfl, by rw [hrun]; rfl, by rw [hrun]; rfl, pr, hrun⟩

/-- Witness for C1 at the empty progress prefix and a concrete payload. -/
theorem analysis_stream_terminates_once_witness :
    ((runStream (([] : List ProgressData).map StreamEvent.progress
          ++ [StreamEvent.complete "payload"])).completedCalls = ["payload"]
      ∧ (runStream (([] : List ProgressData).map StreamEvent.progress
          ++ [StreamEvent.complete "payload"])).progress = none
      ∧ (runStream (([] : List ProgressData).map StreamEvent.progress
          ++ [StreamEvent.complete "payload"])).isAnalyzing = false
      ∧ (runStream (([] : List ProgressData).map StreamEvent.progress
          ++ [StreamEvent.complete "payload"])).closed = true)
    ∧ (runStream (([] : List ProgressData).map StreamEvent.progress
        ++ [StreamEvent.error ErrorData.unparsable])).closed = true
    ∧ (∀ s : HookState, s.closed = true → ∀ e, step s e = s)
    ∧ ((runStream (([] : List ProgressData).map StreamEvent.progress)).closed = false
      ∧ (runStream (([] : List ProgressData).map StreamEvent.progress)).completedCalls = []
      ∧ (runStream (([] : List ProgressData).map StreamEvent.progress)).errorCalls = []
      ∧ (runStream (([] : List ProgressData).map StreamEvent.progress)).isAnalyzing = true
      ∧ ∃ pr, runStream (([] : List ProgressData).map StreamEvent.progress)
          = { initState with progress := pr }) :=
  analysis_stream_terminates_once [] "payload" ErrorData.unparsable

/-- C2: every terminal failure is reported with a human-readable message and
never silently dropped. Whenever an `error`-typed event reaches the handlers
registered by `handleAnalyze` on an open source, the source ends up closed
and `onAnalysisError` has been invoked at least once with a non-empty
message; when the event carried a parsed payload with a truthy `message`
string, that very string is among the reported messages. -/
theorem error_event_always_reported (s : HookState) (h : s.closed = false)
    (d : ErrorData) :
    (step s (StreamEvent.error d)).closed = true
    ∧ ∃ ms, (step s (StreamEvent.error d)).errorCalls = s.errorCalls ++ ms
        ∧ ms ≠ []
        ∧ (∀ m ∈ ms, m ≠ "")
        ∧ (∀ msg, d = ErrorData.parsed (some msg) → msg ≠ "" → msg ∈ ms) := by
  cases d with
  | noString =>
      refine ⟨by simp [step, h, errorListenerStep, onerrorStep],
        ["Connection error to analysis service."], ?_, ?_, ?_, ?_⟩
      · simp [step, h, errorListenerStep, onerrorStep]
      · simp
      · intro m hm
        simp at hm
        simp [hm]
      · intro msg hmsg
        exact absurd hmsg (by simp)
  | unparsable =>
      refine ⟨by simp [step, h, errorListenerStep, onerrorStep],
        ["Analysis failed with an unknown error.",
         "Connection error to analysis service."], ?_, ?_, ?_, ?_⟩
      · simp [step, h, errorListenerStep, onerrorStep]
      · simp
      · intro m hm
        simp only [List.mem_cons, List.mem_singleton, List.not_mem_nil, or_false] at hm
        rcases hm with rfl | rfl <;> simp
      · intro msg hmsg
        exact absurd hmsg (by simp)
  | parsed msg =>
      refine ⟨by simp [step, h, errorListenerStep, onerrorStep],
        [jsMessageOr msg "Analysis failed",
         "Connection error to analysis service."], ?_, ?_, ?_, ?_⟩
      · simp [step, h, errorListenerStep, onerrorStep]
      · simp
      · intro m hm
        simp only [List.mem_cons, List.mem_singleton, List.not_mem_nil, or_false] at hm
        rcases hm with rfl | rfl
        · cases msg with
          | none => simp [jsMessageOr]
          | some m0 =>
              by_cases hm0 : m0 = "" <;> simp [jsMessageOr, hm0]
        · simp
      · intro m0 hm0 hne
        have hmsg : msg = some m0 := by injection hm0
        subst hmsg
        simp [jsMessageOr, hne]

/-- Witness for C2 at a concrete open state and a data-less error event. -/
theorem error_event_always_reported_witness :
    initState.closed = false
    ∧ ((step initState (StreamEvent.error ErrorData.noString)).closed = true
      ∧ ∃ ms, (step initState (StreamEvent.error ErrorData.noString)).errorCalls
            = initState.errorCalls ++ ms
          ∧ ms ≠ []
          ∧ (∀ m ∈ ms, m ≠ "")
          ∧ (∀ msg, ErrorData.noString = ErrorData.parsed (some msg) → msg ≠ "" → msg ∈ ms)) :=
  ⟨rfl, error_event_always_reported initState rfl ErrorData.noString⟩

/-- The defaults applied by `useRouteMetadata` when route metadata arrives:
if `metadata.has_timestamps && metadata.timestamp_coverage > 0.8` the timing
mode is set to `'gpx_timestamps'` and, when a start time is present and
strictly before the current time, historical mode is enabled; otherwise the
timing mode is set to `'manual'` and historical mode stays at its initial
`false`. Returns the resulting `(timingMode, useHistoricalMode)` pair. -/
def applyMetadataDefaults (m : RouteMetadata) (now : Int) : TimingMode × Bool :=
  if m.has_timestamps = true ∧ m.timestamp_coverage > 0.8 then
    (TimingMode.gpx_timestamps,
      match m.start_time with
      | some t => decide (t < now)
      | none => false)
  else
    (TimingMode.manual, false)

/-- Error raised by the backend timing resolver. -/
inductive TimingError
| invalidTimingConfig
deriving DecidableEq

/-- Modelled from the spec: the backend Timing Resolver lives in the `api/`
tree, which is absent from the available sources; per the spec it "must fail
with `InvalidTimingConfigError` if GPX-timestamp mode is requested but the
source coverage (fraction of points carrying a timestamp) is below a
configured minimum threshold". -/
def resolveTimingConfig (mode : TimingMode) (coverage minCoverage : ℚ) :
    Except TimingError Unit :=
  if mode = TimingMode.gpx_timestamps ∧ coverage < minCoverage then
    Except.error TimingError.invalidTimingConfig
  else
    Except.ok ()

/-- C4: requesting GPX-timestamp mode with timestamp coverage below the
configured minimum makes the timing resolver fail with
`InvalidTimingConfigError`; and the client defaults to `'gpx_timestamps'`
iff the metadata reports `has_timestamps` and coverage strictly above 0.8,
defaulting to `'manual'` otherwise. -/
theorem timing_coverage_threshold (coverage minCoverage : ℚ)
    (h : coverage < minCoverage) (m : RouteMetadata) (now : Int) :
    resolveTimingConfig TimingMode.gpx_timestamps coverage minCoverage
        = Except.error TimingError.invalidTimingConfig
    ∧ ((applyMetadataDefaults m now).1 = TimingMode.gpx_timestamps
        ↔ (m.has_timestamps = true ∧ m.timestamp_coverage > 0.8))
    ∧ ((applyMetadataDefaults m now).1 ≠ TimingMode.gpx_timestamps
        → (applyMetadataDefaults m now).1 = TimingMode.manual) := by
  refine ⟨by simp [resolveTimingConfig, h], ?_, ?_⟩
  · by_cases hc : m.has_timestamps = true ∧ m.timestamp_coverage > 0.8
    · cases hst : m.start_time <;> simp [applyMetadataDefaults, hc, hst]
    · simp [applyMetadataDefaults, hc]
  · by_cases hc : m.has_timestamps = true ∧ m.timestamp_coverage > 0.8
    · cases hst : m.start_time <;> simp [applyMetadataDefaults, hc, hst]
    · simp [applyMetadataDefaults, hc]

/-- Witness for C4: coverage 1/2 is below a threshold of 4/5, and a route
with full coverage defaults to GPX-timestamp mode. -/
theorem timing_coverage_threshold_witness :
    (1 : ℚ) / 2 < 4 / 5
    ∧ (resolveTimingConfig TimingMode.gpx_timestamps (1 / 2) (4 / 5)
          = Except.error TimingError.invalidTimingConfig
      ∧ ((applyMetadataDefaults ⟨true, 1, some 0, none, none⟩ 5).1 = TimingMode.gpx_timestamps
          ↔ ((true : Bool) = true ∧ (1 : ℚ) > 0.8))
      ∧ ((applyMetadataDefaults ⟨true, 1, some 0, none, none⟩ 5).1 ≠ TimingMode.gpx_timestamps
          → (applyMetadataDefaults ⟨true, 1, some 0, none, none⟩ 5).1 = TimingMode.manual)) :=
  ⟨by norm_num,
    timing_coverage_threshold (1 / 2) (4 / 5) (by norm_num) ⟨true, 1, some 0, none, none⟩ 5⟩

/-- The historical-validity note rendered by `TimingModeSelector`. -/
inductive HistoricalNote
| warnFuture
| confirmPast
| noNote
deriving DecidableEq

/-- The note rendered by `TimingModeSelector` about historical mode: the
GPX block renders only when `routeMetadata?.has_timestamps`, the inner
block only when `timingMode === 'gpx_timestamps'`, and the note only when
`useHistoricalMode && routeMetadata.start_time`; the note is the
future-date warning when `!(gpxDate < now)` and the past-date confirmation
otherwise. -/
def historicalNote (timingMode : TimingMode) (useHistoricalMode : Bool)
    (routeMetadata : Option RouteMetadata) (now : Int) : HistoricalNote :=
  match routeMetadata with
  | none => HistoricalNote.noNote
  | some m =>
    if m.has_timestamps = true ∧ timingMode = TimingMode.gpx_timestamps
        ∧ useHistoricalMode = true then
      match m.start_time with
      | some t => if t < now then HistoricalNote.confirmPast else HistoricalNote.warnFuture
      | none => HistoricalNote.noNote
    else
      HistoricalNote.noNote

/-- A metadata record whose GPX start time lies in the past but which does
not report timestamps. -/
def metadataNoTimestamps : RouteMetadata :=
  { has_timestamps := false, timestamp_coverage := 1, start_time := some 0
    estimated_duration_hours := none, total_distance_km := none }

/-- Counterexample to C5 as stated: `useRouteMetadata` does not auto-enable
historical mode "if and only if the GPX start time is strictly before the
current time" — for a route whose metadata has `has_timestamps = false`
but a start time (epoch 0) strictly before the current time (epoch 10),
the hook leaves historical mode disabled, refuting the right-to-left
direction of the claimed equivalence. -/
theorem historical_auto_enable_counterexample :
    ¬ ((applyMetadataDefaults metadataNoTimestamps 10).2 = true ↔ (0 : Int) < 10) := by
  decide

/-- C5 (amended): within the GPX-defaulting path — metadata reporting
timestamps, coverage strictly above 0.8, and a start time present —
`useRouteMetadata` auto-enables historical mode iff the GPX start time is
strictly before the current time; and whenever historical mode is selected
under GPX-timestamp mode with a start time present, `TimingModeSelector`
renders the future-date warning iff the start time is not in the past and
the past-date confirmation iff it is. -/
theorem historical_mode_validity (m : RouteMetadata) (now t : Int)
    (hts : m.has_timestamps = true) (hst : m.start_time = some t) :
    (m.timestamp_coverage > 0.8
      → ((applyMetadataDefaults m now).2 = true ↔ t < now))
    ∧ (historicalNote TimingMode.gpx_timestamps true (some m) now = HistoricalNote.warnFuture
        ↔ ¬ t < now)
    ∧ (historicalNote TimingMode.gpx_timestamps true (some m) now = HistoricalNote.confirmPast
        ↔ t < now) := by
  refine ⟨?_, ?_, ?_⟩
  · intro hcov
    simp [applyMetadataDefaults, hts, hcov, hst]
  · by_cases hlt : t < now <;> simp [historicalNote, hts, hst, hlt]
  · by_cases hlt : t < now <;> simp [historicalNote, hts, hst, hlt]

/-- A metadata record with full timestamp coverage and a GPX start at
epoch 0. -/
def metadataFullCoverage : RouteMetadata :=
  { has_timestamps := true, timestamp_coverage := 1, start_time := some 0
    estimated_duration_hours := none, total_distance_km := none }

/-- Witness for the amended C5 at a past GPX start time (0 < 10). -/
theorem historical_mode_validity_witness :
    metadataFullCoverage.has_timestamps = true
    ∧ metadataFullCoverage.start_time = some 0
    ∧ ((metadataFullCoverage.timestamp_coverage > 0.8
        → ((applyMetadataDefaults metadataFullCoverage 10).2 = true ↔ (0 : Int) < 10))
      ∧ (historicalNote TimingMode.gpx_timestamps true (some metadataFullCoverage) 10
            = HistoricalNote.warnFuture ↔ ¬ (0 : Int) < 10)
      ∧ (historicalNote TimingMode.gpx_timestamps true (some metadataFullCoverage) 10
            = HistoricalNote.confirmPast ↔ (0 : Int) < 10)) :=
  ⟨rfl, rfl, historical_mode_validity metadataFullCoverage 10 0 rfl rfl⟩

/-- Status of a `forecast_results` row; the values written by the system
are `'processing'`, `'completed'` and `'failed'`. -/
inductive JobStatus
| processing
| completed
| failed
deriving DecidableEq

/-- The string stored in the `status` column for each status. -/
def statusString : JobStatus → String
  | JobStatus.processing => "processing"
  | JobStatus.completed => "completed"
  | JobStatus.failed => "failed"

/-- A `forecast_results` row (the columns the lifecycle concerns). -/
structure ForecastResultRow where
  id : String
  route_id : String
  status : JobStatus
deriving DecidableEq

/-- Row creation per the schema: the `status` column defaults to
`'processing'` (`status VARCHAR(20) NOT NULL DEFAULT 'processing'`). -/
def mkForecastResult (id route_id : String) : ForecastResultRow :=
  { id := id, route_id := route_id, status := JobStatus.processing }

/-- Modelled from the spec: the Job Orchestrator lives in the `api/` tree,
which is absent from the available sources; per the spec the state machine
per ForecastResult is `created → processing → {completed | failed}` with
terminal states absorbing, so the only status update it performs moves a
`processing` row to a terminal status and leaves terminal rows untouched. -/
def setStatus (r : ForecastResultRow) (s : JobStatus) : ForecastResultRow :=
  if r.status = JobStatus.processing
      ∧ (s = JobStatus.completed ∨ s = JobStatus.failed) then
    { r with status := s }
  else
    r

/-- C6: every `forecast_results` row is created with status `'processing'`;
every status value is one of `'processing'`, `'completed'`, `'failed'`; a
`processing` row transitions to the requested terminal status in one
update; and terminal states are absorbing — no update changes a row whose
status is `completed` or `failed`. -/
theorem forecast_result_lifecycle (id route_id : String) (r : ForecastResultRow)
    (s u : JobStatus)
    (hterm : s = JobStatus.completed ∨ s = JobStatus.failed)
    (hr : r.status = JobStatus.completed ∨ r.status = JobStatus.failed) :
    (mkForecastResult id route_id).status = JobStatus.processing
    ∧ (∀ st : JobStatus, statusString st = "processing"
        ∨ statusString st = "completed" ∨ statusString st = "failed")
    ∧ (setStatus (mkForecastResult id route_id) s).status = s
    ∧ setStatus r u = r := by
  refine ⟨rfl, ?_, ?_, ?_⟩
  · intro st
    cases st <;> simp [statusString]
  · rcases hterm with rfl | rfl <;> simp [setStatus, mkForecastResult]
  · rcases hr with hr | hr <;> simp [setStatus, hr]

/-- Witness for C6 at a concrete row completing once and staying put. -/
theorem forecast_result_lifecycle_witness :
    (JobStatus.completed = JobStatus.completed ∨ JobStatus.completed = JobStatus.failed)
    ∧ ((mkForecastResult "r1" "route1").status = JobStatus.completed
        ∨ (mkForecastResult "r1" "route1").status = JobStatus.failed
        → False)
    ∧ ((mkForecastResult "fr" "rt").status = JobStatus.processing
      ∧ (∀ st : JobStatus, statusString st = "processing"
          ∨ statusString st = "completed" ∨ statusString st = "failed")
      ∧ (setStatus (mkForecastResult "fr" "rt") JobStatus.completed).status = JobStatus.completed
      ∧ setStatus ⟨"fr", "rt", JobStatus.completed⟩ JobStatus.failed
          = ⟨"fr", "rt", JobStatus.completed⟩) :=
  ⟨Or.inl rfl, by decide,
    forecast_result_lifecycle "fr" "rt" ⟨"fr", "rt", JobStatus.completed⟩
      JobStatus.completed JobStatus.failed (Or.inl rfl) (Or.inl rfl)⟩

/-- A `segment_wind` row. `gust_ms` is nullable (`FLOAT` without
`NOT NULL`); all other numeric columns are `NOT NULL`. -/
structure SegmentWindRow where
  result_id : String
  seq : Int
  time_utc : Int
  wind_dir_deg10m : ℚ
  wind_ms10m : ℚ
  wind_ms1p5m : ℚ
  yaw_deg : ℚ
  wind_class : String
  gust_ms : Option ℚ
  confidence : ℚ
deriving DecidableEq

/-- The row-level `CHECK` constraints of `segment_wind`:
`wind_class IN ('head', 'cross', 'tail')` and
`confidence >= 0 AND confidence <= 1`. -/
def segmentWindRowOk (r : SegmentWindRow) : Bool :=
  decide (r.wind_class = "head" ∨ r.wind_class = "cross" ∨ r.wind_class = "tail")
    && decide (0 ≤ r.confidence) && decide (r.confidence ≤ 1)

/-- Whether two `segment_wind` rows collide on the `UNIQUE(result_id, seq)`
key. -/
def segSameKey (a b : SegmentWindRow) : Bool :=
  decide (a.result_id = b.result_id) && decide (a.seq = b.seq)

/-- Insertion into `segment_wind` under the schema constraints: the DBMS
accepts the row only if the `CHECK` constraints hold and no existing row
shares its `(result_id, seq)` key. -/
def insertSegmentWind (t : List SegmentWindRow) (r : SegmentWindRow) :
    Option (List SegmentWindRow) :=
  if segmentWindRowOk r && t.all (fun q => ! segSameKey q r) then
    some (t ++ [r])
  else
    none

/-- Tables reachable from the empty `segment_wind` table by successful
inserts. -/
inductive SegTable : List SegmentWindRow → Prop
| empty : SegTable []
| insert (t : List SegmentWindRow) (r : SegmentWindRow) (t' : List SegmentWindRow)
    (ht : SegTable t) (hins : insertSegmentWind t r = some t') : SegTable t'

/-- C7: every persisted `segment_wind` row has `wind_class` among
`head`/`cross`/`tail`, confidence in `[0, 1]`, a gust speed that is free to
be null or any value (the `CHECK` constraints never look at it), and a
`(result_id, seq)` key unique within the table. -/
theorem segment_wind_invariant (t : List SegmentWindRow) (ht : SegTable t) :
    (∀ r ∈ t, (r.wind_class = "head" ∨ r.wind_class = "cross" ∨ r.wind_class = "tail")
      ∧ 0 ≤ r.confidence ∧ r.confidence ≤ 1)
    ∧ List.Pairwise (fun a b => ¬ (a.result_id = b.result_id ∧ a.seq = b.seq)) t
    ∧ (∀ (r : SegmentWindRow) (g : Option ℚ),
        segmentWindRowOk { r with gust_ms := g } = segmentWindRowOk r) := by
  induction ht with
  | empty =>
      exact ⟨by simp, by simp, fun r g => by simp [segmentWindRowOk]⟩
  | insert t r t' ht hins ih =>
      obtain ⟨hok, hkey⟩ : segmentWindRowOk r = true
          ∧ t.all (fun q => ! segSameKey q r) = true := by
        by_cases hc : segmentWindRowOk r && t.all (fun q => ! segSameKey q r)
        · exact ⟨(Bool.and_eq_true _ _ ▸ hc).1, (Bool.and_eq_true _ _ ▸ hc).2⟩
        · simp [insertSegmentWind, hc] at hins
      have ht' : t' = t ++ [r] := by
        simp only [insertSegmentWind, hok, hkey, Bool.and_self, if_true] at hins
        exact (Option.some.injEq _ _ ▸ hins).symm
      subst ht'
      obtain ⟨ihrows, ihpair, ihgust⟩ := ih
      refine ⟨?_, ?_, ihgust⟩
      · intro q hq
        rcases List.mem_append.mp hq with hq | hq
        · exact ihrows q hq
        · have hqr : q = r := by simpa using hq
          subst hqr
          have := of_decide_eq_true ((Bool.and_eq_true _ _ ▸
            (Bool.and_eq_true _ _ ▸ hok).1).1)
          have h0 := of_decide_eq_true ((Bool.and_eq_true _ _ ▸
            (Bool.and_eq_true _ _ ▸ hok).1).2)
          have h1 := of_decide_eq_true (Bool.and_eq_true _ _ ▸ hok).2
          exact ⟨this, h0, h1⟩
      · rw [List.pairwise_append]
        refine ⟨ihpair, by simp, ?_⟩
        intro a ha b hb
        have hbr : b = r := by simpa using hb
        subst hbr
        have := List.all_eq_true.mp hkey a ha
        simp only [segSameKey, Bool.not_eq_true', Bool.and_eq_false_iff,
          decide_eq_false_iff_not] at this
        rintro ⟨h1, h2⟩
        rcases this with h | h
        · exact h h1
        · exact h h2

/-- A valid example `segment_wind` row. -/
def exampleSegRow : SegmentWindRow :=
  { result_id := "res1", seq := 0, time_utc := 0, wind_dir_deg10m := 90
    wind_ms10m := 5, wind_ms1p5m := 4, yaw_deg := 0, wind_class := "head"
    gust_ms := none, confidence := 1 / 2 }

/-- Witness for C7 at the one-row table obtained by inserting
`exampleSegRow` into the empty table. -/
theorem segment_wind_invariant_witness :
    (∀ r ∈ [exampleSegRow],
        (r.wind_class = "head" ∨ r.wind_class = "cross" ∨ r.wind_class = "tail")
        ∧ 0 ≤ r.confidence ∧ r.confidence ≤ 1)
    ∧ List.Pairwise (fun a b => ¬ (a.result_id = b.result_id ∧ a.seq = b.seq)) [exampleSegRow]
    ∧ (∀ (r : SegmentWindRow) (g : Option ℚ),
        segmentWindRowOk { r with gust_ms := g } = segmentWindRowOk r) :=
  segment_wind_invariant [exampleSegRow]
    (SegTable.insert [] exampleSegRow [exampleSegRow] SegTable.empty
      (by simp [insertSegmentWind, segmentWindRowOk, exampleSegRow]; norm_num))

/-- A `summaries` row; `window_best_depart`, `provider_spread` and `notes`
are nullable. -/
structure SummaryRow where
  result_id : String
  head_pct : ℚ
  tail_pct : ℚ
  cross_pct : ℚ
  longest_head_km : ℚ
  window_best_depart : Option Int
  provider_spread : Option ℚ
  notes : Option String
deriving DecidableEq

/-- Insertion into `summaries` under the schema constraints: the DBMS
accepts the row only if no existing row shares its `result_id`
(`UNIQUE(result_id)`). -/
def insertSummary (t : List SummaryRow) (r : SummaryRow) :
    Option (List SummaryRow) :=
  if t.all fun q => ! decide (q.result_id = r.result_id) then
    some (t ++ [r])
  else
    none

/-- Tables reachable from the empty `summaries` table by successful
inserts. -/
inductive SummaryTable : List SummaryRow → Prop
| empty : SummaryTable []
| insert (t : List SummaryRow) (r : SummaryRow) (t' : List SummaryRow)
    (ht : SummaryTable t) (hins : insertSummary t r = some t') : SummaryTable t'

/-- The 1:1 invariant of `summaries`: any two rows with the same
`result_id` are the same row. -/
def summaryUnique (t : List SummaryRow) : Prop :=
  ∀ a ∈ t, ∀ b ∈ t, a.result_id = b.result_id → a = b

/-- Rows of `summaries` tables carry pairwise distinct `result_id`s. -/
lemma summary_table_pairwise (t : List SummaryRow) (ht : SummaryTable t) :
    List.Pairwise (fun a b => a.result_id ≠ b.result_id) t := by
  induction ht with
  | empty => exact List.Pairwise.nil
  | insert t r t' ht hins ih =>
      have hkey : t.all (fun q => ! decide (q.result_id = r.result_id)) = true := by
        by_cases hc : t.all fun q => ! decide (q.result_id = r.result_id)
        · exact hc
        · simp [insertSummary, hc] at hins
      have ht' : t' = t ++ [r] := by
        simp only [insertSummary, hkey, if_true] at hins
        exact (Option.some.injEq _ _ ▸ hins).symm
      subst ht'
      rw [List.pairwise_append]
      refine ⟨ih, by simp, ?_⟩
      intro a ha b hb
      have hbr : b = r := by simpa using hb
      subst hbr
      have := List.all_eq_true.mp hkey a ha
      simpa using this

/-- Pairwise-distinct `result_id`s give the mem-level uniqueness. -/
lemma pairwise_result_id_unique (t : List SummaryRow)
    (hp : List.Pairwise (fun a b => a.result_id ≠ b.result_id) t) :
    summaryUnique t := by
  induction t with
  | nil => intro a ha; exact absurd ha (List.not_mem_nil a)
  | cons x xs ih =>
      have hx := List.pairwise_cons.mp hp
      intro a ha b hb hab
      rcases List.mem_cons.mp ha with rfl | ha' <;>
        rcases List.mem_cons.mp hb with rfl | hb'
      · rfl
      · exact absurd hab (hx.1 b hb')
      · exact absurd hab.symm (hx.1 a ha')
      · exact ih hx.2 a ha' b hb' hab

/-- C8: in every reachable `summaries` table, equal `result_id` implies the
same row (at most one Summary per ForecastResult), and successful insertion
preserves this invariant. -/
theorem summary_one_per_result (t : List SummaryRow) (ht : SummaryTable t) :
    summaryUnique t
    ∧ (∀ (r : SummaryRow) (t' : List SummaryRow),
        insertSummary t r = some t' → summaryUnique t') := by
  refine ⟨pairwise_result_id_unique t (summary_table_pairwise t ht), ?_⟩
  intro r t' hins
  exact pairwise_result_id_unique t'
    (summary_table_pairwise t' (SummaryTable.insert t r t' ht hins))

/-- A `summaries` row for result `res1`. -/
def exampleSummaryRow : SummaryRow :=
  { result_id := "res1", head_pct := 40, tail_pct := 35, cross_pct := 25
    longest_head_km := 5, window_best_depart := none, provider_spread := none
    notes := none }

/-- Witness for C8 at the one-row table containing `exampleSummaryRow`. -/
theorem summary_one_per_result_witness :
    summaryUnique [exampleSummaryRow]
    ∧ (∀ (r : SummaryRow) (t' : List SummaryRow),
        insertSummary [exampleSummaryRow] r = some t' → summaryUnique t') :=
  summary_one_per_result [exampleSummaryRow]
    (SummaryTable.insert [] exampleSummaryRow [exampleSummaryRow] SummaryTable.empty
      (by simp [insertSummary]))

/-- JavaScript `Math.round`: rounds half toward positive infinity. -/
def jsRound (x : ℚ) : ℤ :=
  ⌊x + 1 / 2⌋

/-- The percentage computed by `AnalysisProgressDisplay`:
`Math.max(0, Math.min(100, Math.round(progress.progress * 100)))`; the same
value is used both for the displayed text and for the progress-bar width. -/
def progressPercentage (p : ℚ) : ℤ :=
  max 0 (min 100 (jsRound (p * 100)))

/-- C9: the displayed percentage is `Math.round(progress * 100)` clamped to
`[0, 100]`; in particular it lies in `[0, 100]` for every numeric progress
value, including values outside `[0, 1]`, and on `[0, 1]` the clamp is the
identity. -/
theorem progress_percentage_clamped (p : ℚ) :
    0 ≤ progressPercentage p
    ∧ progressPercentage p ≤ 100
    ∧ progressPercentage p = max 0 (min 100 (jsRound (p * 100)))
    ∧ (0 ≤ p → p ≤ 1 → progressPercentage p = jsRound (p * 100)) := by
  refine ⟨le_max_left 0 _, ?_, rfl, ?_⟩
  · exact max_le (by norm_num) (min_le_left 100 _)
  · intro h0 h1
    have hlo : (0 : ℤ) ≤ jsRound (p * 100) := by
      rw [jsRound, Int.le_floor]
      push_cast
      nlinarith
    have hhi : jsRound (p * 100) ≤ 100 := by
      rw [jsRound]
      have : p * 100 + 1 / 2 < 101 := by nlinarith
      have hfl : ⌊p * 100 + 1 / 2⌋ < (101 : ℤ) := by
        rw [Int.floor_lt]
        push_cast
        exact this
      omega
    rw [progressPercentage, min_eq_right hhi, max_eq_right hlo]

/-- Witness for C9 at progress value 1/2 (in `[0, 1]`, displayed as 50),
discharging the in-range hypotheses of the identity conjunct. -/
theorem progress_percentage_clamped_witness :
    (0 : ℚ) ≤ 1 / 2 ∧ (1 : ℚ) / 2 ≤ 1
    ∧ 0 ≤ progressPercentage (1 / 2)
    ∧ progressPercentage (1 / 2) ≤ 100
    ∧ progressPercentage (1 / 2) = jsRound (1 / 2 * 100) :=
  ⟨by norm_num, by norm_num, (progress_percentage_clamped (1 / 2)).1,
    (progress_percentage_clamped (1 / 2)).2.1,
    (progress_percentage_clamped (1 / 2)).2.2.2 (by norm_num) (by norm_num)⟩

/-- One entry of `analysisData.segments` as consumed by `RouteMap`.
`lat`/`lon` are `none` when the field is absent (`undefined`/`null`). -/
structure SegmentData where
  lat : Option ℚ
  lon : Option ℚ
  wind_class : String
  wind_ms1p5m : ℚ
  wind_dir_deg10m : ℚ
  confidence : ℚ
  yaw_deg : ℚ
  seq : Int
deriving DecidableEq

/-- JavaScript truthiness of an optional number: `undefined`, `null` and
`0` are falsy, every other number is truthy. -/
def truthyNum : Option ℚ → Bool
  | none => false
  | some x => decide (x ≠ 0)

/-- A GeoJSON point feature built by `RouteMap` for one wind segment. -/
structure WindFeature where
  windClass : String
  windSpeed : ℚ
  windDirection : ℚ
  confidence : ℚ
  yawAngle : ℚ
  seq : Int
  coordinates : ℚ × ℚ
deriving DecidableEq

/-- The feature mapped from a segment: properties carry the segment's
`wind_class`, `wind_ms1p5m`, `wind_dir_deg10m`, `confidence`, `yaw_deg`
and `seq`; the geometry is `[segment.lon, segment.lat]`. -/
def segToFeature (s : SegmentData) : WindFeature :=
  { windClass := s.wind_class
    windSpeed := s.wind_ms1p5m
    windDirection := s.wind_dir_deg10m
    confidence := s.confidence
    yawAngle := s.yaw_deg
    seq := s.seq
    coordinates := (s.lon.getD 0, s.lat.getD 0) }

/-- The feature list of the `windSegments` collection in `RouteMap`:
`analysisData.segments.filter(s => s.lat && s.lon).map(...)`. -/
def windSegmentFeatures (segs : List SegmentData) : List WindFeature :=
  (segs.filter fun s => truthyNum s.lat && truthyNum s.lon).map segToFeature

/-- C10: the wind-segment collection holds exactly the features of segments
whose `lat` and `lon` are both truthy; a coordinate is falsy exactly when it
is absent or zero, so segments on the equator or prime meridian are
silently excluded; and each included feature carries the segment's wind
class, rider-height speed, direction, confidence, yaw and sequence index. -/
theorem wind_segment_features_truthy_filter (segs : List SegmentData)
    (f : WindFeature) (s : SegmentData) :
    (f ∈ windSegmentFeatures segs
      ↔ ∃ s' ∈ segs, truthyNum s'.lat = true ∧ truthyNum s'.lon = true
          ∧ segToFeature s' = f)
    ∧ (truthyNum s.lat = false ↔ s.lat = none ∨ s.lat = some 0)
    ∧ (s.lat = some 0 ∨ s.lon = some 0
        → s ∉ segs.filter fun x => truthyNum x.lat && truthyNum x.lon)
    ∧ ((segToFeature s).windClass = s.wind_class
      ∧ (segToFeature s).windSpeed = s.wind_ms1p5m
      ∧ (segToFeature s).windDirection = s.wind_dir_deg10m
      ∧ (segToFeature s).confidence = s.confidence
      ∧ (segToFeature s).yawAngle = s.yaw_deg
      ∧ (segToFeature s).seq = s.seq) := by
  refine ⟨?_, ?_, ?_, rfl, rfl, rfl, rfl, rfl, rfl⟩
  · constructor
    · intro hf
      obtain ⟨s', hs', hmap⟩ := List.mem_map.mp hf
      obtain ⟨hmem, hcond⟩ := List.mem_filter.mp hs'
      exact ⟨s', hmem, (Bool.and_eq_true _ _ ▸ hcond).1,
        (Bool.and_eq_true _ _ ▸ hcond).2, hmap⟩
    · rintro ⟨s', hmem, hlat, hlon, hmap⟩
      exact List.mem_map.mpr ⟨s', List.mem_filter.mpr ⟨hmem, by simp [hlat, hlon]⟩, hmap⟩
  · cases hl : s.lat with
    | none => simp [truthyNum]
    | some x =>
        by_cases hx : x = 0 <;> simp [truthyNum, hx]
  · intro h0 hmem
    have hcond := (List.mem_filter.mp hmem).2
    rcases h0 with h0 | h0 <;>
      simp [truthyNum, h0] at hcond

/-- A segment lying exactly on the equator (`lat = 0`). -/
def equatorSegment : SegmentData :=
  { lat := some 0, lon := some 5, wind_class := "tail", wind_ms1p5m := 3
    wind_dir_deg10m := 180, confidence := 1, yaw_deg := 180, seq := 7 }

/-- Witness for C10: with a one-segment list lying on the equator, the
feature collection is empty and the segment is excluded from the filter. -/
theorem wind_segment_features_truthy_filter_witness :
    ((segToFeature equatorSegment ∈ windSegmentFeatures [equatorSegment]
        ↔ ∃ s' ∈ [equatorSegment], truthyNum s'.lat = true ∧ truthyNum s'.lon = true
            ∧ segToFeature s' = segToFeature equatorSegment)
      ∧ (truthyNum equatorSegment.lat = false
          ↔ equatorSegment.lat = none ∨ equatorSegment.lat = some 0)
      ∧ (equatorSegment.lat = some 0 ∨ equatorSegment.lon = some 0
          → equatorSegment
              ∉ [equatorSegment].filter fun x => truthyNum x.lat && truthyNum x.lon)
      ∧ ((segToFeature equatorSegment).windClass = equatorSegment.wind_class
        ∧ (segToFeature equatorSegment).windSpeed = equatorSegment.wind_ms1p5m
        ∧ (segToFeature equatorSegment).windDirection = equatorSegment.wind_dir_deg10m
        ∧ (segToFeature equatorSegment).confidence = equatorSegment.confidence
        ∧ (segToFeature equatorSegment).yawAngle = equatorSegment.yaw_deg
        ∧ (segToFeature equatorSegment).seq = equatorSegment.seq))
    ∧ equatorSegment
        ∉ [equatorSegment].filter (fun x => truthyNum x.lat && truthyNum x.lon) :=
  ⟨wind_segment_features_truthy_filter [equatorSegment]
      (segToFeature equatorSegment) equatorSegment,
    (wind_segment_features_truthy_filter [equatorSegment]
      (segToFeature equatorSegment) equatorSegment).2.2.1 (Or.inl rfl)⟩

end AgainstWind
